import Mathlib

/-!
Shallow embedding of the XROH quote aggregation + scoring pipeline.

Sources embedded:
- `src/backend/src/modules/providers/quote-aggregator.service.ts`
  (`aggregateQuotes`, `fetchQuoteWithTimeout`, `validateRoute`,
  `buildCacheKey`, `getCachedQuotes`, `cacheQuotes`)
- `src/backend/src/modules/routes/scoring.service.ts`
  (`calculateRouteScore`, `calculateFeeScore`, `calculateSpeedScore`,
  `calculateReliabilityScore`, `calculateSlippageScore`, `generateExplanation`)
- `src/unnamed/part_009` (`StrategyService`: `predefinedStrategies`,
  `getStrategyWeights`, `validateWeights`)
- `RouteComparisonService` (`scoreAndRankRoutes`, `compareRoutes`,
  `getTotalFee`) found in `src/backend/src/modules/api-keys/api-keys.service.ts`

Modelling conventions:
- JavaScript `BigInt` values are `Int`; the integer-string amount/fee fields
  are modelled as the parsed `Int` values (`BigInt(s)` parsing of well-formed
  integer strings is the identity under this reading).
- JavaScript `number` (IEEE-754 binary64) values that stay small and exact in
  every execution path we reason about are modelled as `ℚ`.  The one place the
  source converts a `BigInt` into a `number` (`Number(bigint)`) is modelled
  faithfully by `toDouble`, which rounds an integer to the nearest binary64
  value (round half to even), because this conversion is lossy above `2^53`.
- Promises/async are collapsed to values; `Promise.allSettled` outcomes are
  the explicit `SettledResult` type; time (`Date.now()`) is passed explicitly.
- The Redis cache is a function `String → Option CacheEntry` threaded through
  `aggregateQuotes` explicitly, with absolute expiry timestamps.
-/

namespace XROH

/-! ## Data model (`common/interfaces/routes.interface.ts`) -/

/-- Fee breakdown of a route (`RouteFee`).  Each component is an
arbitrary-precision integer string in the source; `none` models a
missing/falsy field, which the scoring code defaults to `'0'` via `|| '0'`. -/
structure RouteFee where
  network_fee : Option Int
  bridge_fee : Option Int
  protocol_fee : Option Int
  deriving Repr, DecidableEq

/-- Canonical provider-independent route (`NormalizedRoute`), restricted to
the fields the aggregation/scoring/comparison pipeline reads. -/
structure NormalizedRoute where
  route_id : String
  provider : String
  source_chain : String
  destination_chain : String
  source_token : String
  destination_token : String
  input_amount : Int
  output_amount : Int
  total_fee : RouteFee
  estimated_time : Int
  slippage_risk : String
  reliability_score : ℚ
  liquidity_score : ℚ
  deriving Repr, DecidableEq

/-- The five strategy weights (`ScoringWeights`). -/
structure ScoringWeights where
  fee_weight : ℚ
  speed_weight : ℚ
  reliability_weight : ℚ
  slippage_weight : ℚ
  liquidity_weight : ℚ
  deriving Repr, DecidableEq

/-- Per-route scoring record (`RouteScore`). -/
structure RouteScore where
  route_id : String
  fee_score : ℚ
  speed_score : ℚ
  reliability_score : ℚ
  slippage_score : ℚ
  liquidity_score : ℚ
  total_score : ℚ
  explanation : String
  deriving Repr, DecidableEq

/-- Quote request (`QuoteParams`), restricted to the fields the aggregator
reads (the five cache-key fields). -/
structure QuoteParams where
  source_chain : String
  destination_chain : String
  source_token : String
  destination_token : String
  amount : String
  deriving Repr, DecidableEq

/-! ## IEEE-754 binary64 conversion of big integers

`Number(bigint)` in JavaScript rounds the integer to the nearest binary64
value, ties to even.  For `|n| ≤ 2^53` this is exact; above that, the result
is the nearest multiple of the ulp `2^(bitLength - 53)`. -/

/-- Fuel-driven bit length: `bitLen fuel n` is the number of binary digits of
`n` (0 for 0) provided `fuel` is at least that number.  The fuel of 64 used
below covers every integer below `2^64`, far beyond every fee value occurring
in this development (the conversion is already lossy from `2^53`). -/
def bitLen : Nat → Nat → Nat
  | 0, _ => 0
  | fuel+1, n => if n = 0 then 0 else bitLen fuel (n / 2) + 1

/-- Round a rational to the nearest integer, ties to even. -/
def rne (q : ℚ) : Int :=
  let f := ⌊q⌋
  let r := q - f
  if r < 1/2 then f
  else if 1/2 < r then f + 1
  else if f % 2 = 0 then f else f + 1

/-- Nearest binary64 value of a natural number (as an integer). -/
def natToDouble (a : Nat) : Int :=
  if a ≤ 2^53 then (a : Int)
  else
    let s := bitLen 64 a - 53
    rne ((a : ℚ) / (2^s : ℚ)) * 2^s

/-- `Number(bigint)`: nearest binary64 value of an integer (exact on
`|n| ≤ 2^53`, rounded to the ulp grid above). -/
def toDouble (n : Int) : Int :=
  if n < 0 then -(natToDouble n.natAbs) else natToDouble n.natAbs

/-! ## Scoring service (`scoring.service.ts`) -/

/-- Exact big-integer sum of the three fee components, with the `|| '0'`
default for missing fields
(`BigInt(network_fee || '0') + BigInt(bridge_fee || '0') + BigInt(protocol_fee || '0')`). -/
def totalFeeBigInt (r : NormalizedRoute) : Int :=
  r.total_fee.network_fee.getD 0 + r.total_fee.bridge_fee.getD 0 +
    r.total_fee.protocol_fee.getD 0

/-- `Number(networkFee + bridgeFee + protocolFee)`: the fee sum as the
aggreging code actually uses it, after conversion to a binary64 number. -/
def feeAsNumber (r : NormalizedRoute) : Int :=
  toDouble (totalFeeBigInt r)

/-- `Math.min(...xs)` over a nonempty list (the source only applies it to the
nonempty candidate set; the `[]` value is irrelevant junk). -/
def listMin : List Int → Int
  | [] => 0
  | x :: xs => xs.foldl min x

/-- `Math.max(...xs)` over a nonempty list. -/
def listMax : List Int → Int
  | [] => 0
  | x :: xs => xs.foldl max x

/-- `calculateFeeScore`: inverse-linear scale of this route's (binary64) fee
sum over the candidate set; 100 when the spread is zero.  The division and
scaling on the small score values are modelled exactly in `ℚ`. -/
def calculateFeeScore (route : NormalizedRoute) (allRoutes : List NormalizedRoute) : ℚ :=
  let fees := allRoutes.map feeAsNumber
  let minFee := listMin fees
  let maxFee := listMax fees
  if minFee = maxFee then 100
  else ((maxFee : ℚ) - (feeAsNumber route : ℚ)) / ((maxFee : ℚ) - (minFee : ℚ)) * 100

/-- `calculateSpeedScore`: same inverse-linear scale over `estimated_time`. -/
def calculateSpeedScore (route : NormalizedRoute) (allRoutes : List NormalizedRoute) : ℚ :=
  let times := allRoutes.map (·.estimated_time)
  let minTime := listMin times
  let maxTime := listMax times
  if minTime = maxTime then 100
  else ((maxTime : ℚ) - (route.estimated_time : ℚ)) / ((maxTime : ℚ) - (minTime : ℚ)) * 100

/-- `calculateReliabilityScore`: prefer the provider's live `success_rate`
from the metrics store (× 100), falling back to the route's declared
`reliability_score` when no record exists or the store read fails.  The
Prisma lookup (and its failure mode) is the `relLookup` parameter. -/
def calculateReliabilityScore (relLookup : String → Option ℚ)
    (route : NormalizedRoute) : ℚ :=
  match relLookup route.provider with
  | some successRate => successRate * 100
  | none => route.reliability_score

/-- `calculateSlippageScore`: fixed lookup `{low: 100, medium: 60, high: 30}`,
defaulting to 50 for an unknown risk value (`slippageRiskMap[...] || 50`). -/
def calculateSlippageScore (route : NormalizedRoute) : ℚ :=
  if route.slippage_risk = "low" then 100
  else if route.slippage_risk = "medium" then 60
  else if route.slippage_risk = "high" then 30
  else 50

/-- `Math.round(x)`: round half toward positive infinity. -/
def jsRound (q : ℚ) : Int := ⌊q + 1/2⌋

/-- `Math.round(totalScore * 100) / 100`: round to 2 decimal places. -/
def round2 (q : ℚ) : ℚ := (jsRound (q * 100) : ℚ) / 100

/-- `generateExplanation`: threshold commentary per factor, emitted only when
that factor's weight exceeds 0.3; slippage commentary is always emitted. -/
def generateExplanation (route : NormalizedRoute)
    (feeScore speedScore reliabilityScore : ℚ) (weights : ScoringWeights) : String :=
  let e1 : List String :=
    if weights.fee_weight > 0.3 then
      [if feeScore > 80 then "Very competitive fees"
       else if feeScore > 50 then "Moderate fees"
       else "Higher fees compared to alternatives"]
    else []
  let e2 : List String :=
    if weights.speed_weight > 0.3 then
      [if speedScore > 80 then "Fast execution time"
       else if speedScore > 50 then "Average execution time"
       else "Slower execution"]
    else []
  let e3 : List String :=
    if weights.reliability_weight > 0.3 then
      [if reliabilityScore > 90 then "Highly reliable provider"
       else if reliabilityScore > 70 then "Reliable provider"
       else "Lower reliability history"]
    else []
  let e4 : List String :=
    [if route.slippage_risk = "low" then "Low slippage risk"
     else if route.slippage_risk = "medium" then "Medium slippage risk"
     else "Higher slippage risk"]
  String.intercalate ". " (e1 ++ e2 ++ e3 ++ e4)

/-- `calculateRouteScore`: the five sub-scores and their weighted total,
rounded to 2 decimals. -/
def calculateRouteScore (relLookup : String → Option ℚ) (route : NormalizedRoute)
    (weights : ScoringWeights) (allRoutes : List NormalizedRoute) : RouteScore :=
  let feeScore := calculateFeeScore route allRoutes
  let speedScore := calculateSpeedScore route allRoutes
  let reliabilityScore := calculateReliabilityScore relLookup route
  let slippageScore := calculateSlippageScore route
  let liquidityScore := route.liquidity_score
  let totalScore :=
    feeScore * weights.fee_weight +
    speedScore * weights.speed_weight +
    reliabilityScore * weights.reliability_weight +
    slippageScore * weights.slippage_weight +
    liquidityScore * weights.liquidity_weight
  { route_id := route.route_id
    fee_score := feeScore
    speed_score := speedScore
    reliability_score := reliabilityScore
    slippage_score := slippageScore
    liquidity_score := liquidityScore
    total_score := round2 totalScore
    explanation :=
      generateExplanation route feeScore speedScore reliabilityScore weights }

/-! ## Strategy service (`strategy.service.ts`, `src/unnamed/part_009`) -/

/-- A named strategy template (`StrategyTemplate`). -/
structure StrategyTemplate where
  name : String
  description : String
  weights : ScoringWeights
  deriving Repr, DecidableEq

/-- The record literal `predefinedStrategies`, as a lookup by strategy key
(`none` models an absent record property for an unknown key). -/
def predefinedStrategies : String → Option StrategyTemplate
  | "lowest_cost" => some
      { name := "Lowest Cost"
        description := "Prioritizes routes with the lowest fees"
        weights := ⟨0.6, 0.1, 0.1, 0.1, 0.1⟩ }
  | "fast_execution" => some
      { name := "Fast Execution"
        description := "Prioritizes the fastest routes"
        weights := ⟨0.1, 0.6, 0.15, 0.1, 0.05⟩ }
  | "safety_first" => some
      { name := "Safety First"
        description := "Prioritizes the most reliable and low-risk routes"
        weights := ⟨0.05, 0.05, 0.5, 0.2, 0.2⟩ }
  | "portfolio_balanced" => some
      { name := "Portfolio Balanced"
        description := "Balanced approach considering all factors equally"
        weights := ⟨0.2, 0.2, 0.2, 0.2, 0.2⟩ }
  | "custom" => some
      { name := "Custom"
        description := "User-defined custom weights"
        weights := ⟨0.2, 0.2, 0.2, 0.2, 0.2⟩ }
  | _ => none

/-- `getStrategyWeights`: for `custom` with saved user preferences, the saved
weights; otherwise the template's weights, defaulting to `portfolio_balanced`
for an unknown strategy.  `userCustomWeights` models the outcome of the
user-preference lookup (present only when a wallet was supplied and a saved
`custom_weights` record exists). -/
def getStrategyWeights (strategy : String)
    (userCustomWeights : Option ScoringWeights) : ScoringWeights :=
  match strategy, userCustomWeights with
  | "custom", some w => w
  | _, _ =>
    match predefinedStrategies strategy with
    | some t => t.weights
    | none => ⟨0.2, 0.2, 0.2, 0.2, 0.2⟩

/-- `validateWeights`: the sum of the five weights must be within 0.01 of 1.0
and every weight must lie in `[0, 1]`. -/
def validateWeights (w : ScoringWeights) : Bool :=
  let sum := w.fee_weight + w.speed_weight + w.reliability_weight +
    w.slippage_weight + w.liquidity_weight
  if |sum - 1| > 0.01 then false
  else if ¬ ((0 ≤ w.fee_weight ∧ w.fee_weight ≤ 1) ∧
      (0 ≤ w.speed_weight ∧ w.speed_weight ≤ 1) ∧
      (0 ≤ w.reliability_weight ∧ w.reliability_weight ≤ 1) ∧
      (0 ≤ w.slippage_weight ∧ w.slippage_weight ≤ 1) ∧
      (0 ≤ w.liquidity_weight ∧ w.liquidity_weight ≤ 1)) then false
  else true

/-! ## Generic stable sort

ECMAScript 2019 requires `Array.prototype.sort` to be stable; with the
consistent numeric comparator `(a, b) => key(b) - key(a)` the result is the
stable descending sort by `key`.  We model it by insertion sort, which is
stable: an element is inserted before the first element it need not follow. -/

/-- Insert `x` before the first element `y` of `l` with `le x y`. -/
def insertBy {α : Type} (le : α → α → Bool) (x : α) : List α → List α
  | [] => [x]
  | y :: ys => if le x y then x :: y :: ys else y :: insertBy le x ys

/-- Stable insertion sort by `le`. -/
def sortBy {α : Type} (le : α → α → Bool) : List α → List α
  | [] => []
  | x :: xs => insertBy le x (sortBy le xs)

/-- Descending order by a rational key (`le a b` ↔ `a` may precede `b`). -/
def descBy {α : Type} (key : α → ℚ) (a b : α) : Bool :=
  decide (key b ≤ key a)

/-! ## Route comparison service (`RouteComparisonService`) -/

/-- A route paired with its score (`{ ...route, score }`). -/
structure ScoredRoute where
  route : NormalizedRoute
  score : RouteScore
  deriving Repr, DecidableEq

/-- A scored route with its 1-based rank (`RankedRoute`). -/
structure RankedRoute where
  route : NormalizedRoute
  score : RouteScore
  rank : Nat
  deriving Repr, DecidableEq

/-- `scoredRoutes.map((route, index) => ({ ...route, rank: index + 1 }))`,
started at `n = 1`. -/
def assignRanks : Nat → List ScoredRoute → List RankedRoute
  | _, [] => []
  | n, x :: xs => ⟨x.route, x.score, n⟩ :: assignRanks (n+1) xs

/-- The scored (still unsorted) candidate list built by
`routes.map(route => ({ ...route, score: calculateRouteScore(route, weights, routes) }))`. -/
def scoredRoutes (relLookup : String → Option ℚ) (weights : ScoringWeights)
    (routes : List NormalizedRoute) : List ScoredRoute :=
  routes.map (fun r => ⟨r, calculateRouteScore relLookup r weights routes⟩)

/-- `scoreAndRankRoutes`: empty input short-circuits to `[]`; otherwise score
every route against the whole candidate set, stable-sort descending by
`total_score`, and assign 1-based ranks. -/
def scoreAndRankRoutes (relLookup : String → Option ℚ)
    (userCustomWeights : Option ScoringWeights)
    (routes : List NormalizedRoute) (strategy : String) : List RankedRoute :=
  match routes with
  | [] => []
  | _ =>
    let weights := getStrategyWeights strategy userCustomWeights
    let scored := scoredRoutes relLookup weights routes
    let sorted := sortBy (descBy (fun x => x.score.total_score)) scored
    assignRanks 1 sorted

/-- Comparison summary (`RouteComparison`). -/
structure RouteComparison where
  cheapest_route : NormalizedRoute
  fastest_route : NormalizedRoute
  safest_route : NormalizedRoute
  savings_vs_cheapest : Int
  time_difference : Int
  deriving Repr, DecidableEq

/-- `getTotalFee`: `Number(BigInt(network) + BigInt(bridge) + BigInt(protocol))`
— the big-integer fee sum converted to a binary64 number. -/
def getTotalFee (r : NormalizedRoute) : Int :=
  toDouble (totalFeeBigInt r)

/-- `compareRoutes`: throws `Error('No routes to compare')` on an empty
candidate set, otherwise derives cheapest/fastest/safest routes and the fee
and time spreads.  `reduce` without an initial value folds from the head. -/
def compareRoutes (routes : List NormalizedRoute) : Except String RouteComparison :=
  match routes with
  | [] => Except.error "No routes to compare"
  | r0 :: rest =>
    let cheapestRoute := rest.foldl
      (fun min route => if getTotalFee route < getTotalFee min then route else min) r0
    let fastestRoute := rest.foldl
      (fun min route => if route.estimated_time < min.estimated_time then route else min) r0
    let safestRoute := rest.foldl
      (fun max route => if route.reliability_score > max.reliability_score then route else max) r0
    let cheapestFee := getTotalFee cheapestRoute
    let highestFee := listMax (routes.map getTotalFee)
    let fastestTime := fastestRoute.estimated_time
    let slowestTime := listMax (routes.map (·.estimated_time))
    Except.ok
      { cheapest_route := cheapestRoute
        fastest_route := fastestRoute
        safest_route := safestRoute
        savings_vs_cheapest := highestFee - cheapestFee
        time_difference := slowestTime - fastestTime }

/-! ## Quote aggregator (`quote-aggregator.service.ts`) -/

/-- Outcome of one provider's `getQuote` race against the 5 s timeout. -/
inductive QuoteOutcome where
  | success (route : NormalizedRoute)
  | failure
  | timeout
  deriving Repr, DecidableEq

/-- One provider connector's behaviour for a given call: its name, whether
`supportsRoute(source_chain, destination_chain)` holds, and how its
`getQuote` resolves. -/
structure ProviderBehavior where
  name : String
  supports : Bool
  outcome : QuoteOutcome
  deriving Repr, DecidableEq

/-- `fetchQuoteWithTimeout`: an unsupported route, a provider error, or a
timeout are all caught by the surrounding `try`/`catch`, which resolves
`null`; only a successful quote yields a route. -/
def fetchQuoteWithTimeout (p : ProviderBehavior) : Option NormalizedRoute :=
  if !p.supports then none
  else
    match p.outcome with
    | .success r => some r
    | .failure => none
    | .timeout => none

/-- One settled element of the `Promise.allSettled` result array. -/
inductive SettledResult where
  | fulfilled (value : Option NormalizedRoute)
  | rejected
  deriving Repr, DecidableEq

/-- The settled outcome of `fetchQuoteWithTimeout(provider, params)`: since
that function catches every error and resolves `null`, its promise always
fulfills — it is never `rejected`. -/
def settleFetch (p : ProviderBehavior) : SettledResult :=
  SettledResult.fulfilled (fetchQuoteWithTimeout p)

/-- The `results.forEach` loop: a fulfilled non-null value contributes its
route and a `'success'` status; a rejection contributes a `'failed'` status;
a fulfilled `null` contributes nothing at all. -/
def processResults : List (String × SettledResult) →
    List NormalizedRoute × List (String × String)
  | [] => ([], [])
  | (name, SettledResult.fulfilled (some r)) :: rest =>
    ((r :: (processResults rest).1), (name, "success") :: (processResults rest).2)
  | (_, SettledResult.fulfilled none) :: rest => processResults rest
  | (name, SettledResult.rejected) :: rest =>
    ((processResults rest).1, (name, "failed") :: (processResults rest).2)

/-- `validateRoute`: sanity checks on output amount, output/input ratio and
estimated time.  (The surrounding `try`/`catch` only guards `BigInt` string
parsing, which the `Int`-valued model renders total.) -/
def validateRoute (route : NormalizedRoute) : Bool :=
  if route.output_amount ≤ 0 then false
  else if route.output_amount > route.input_amount * 2 then false
  else if route.estimated_time > 86400 then false
  else true

/-- Aggregate result (`AggregatedQuoteResult`). -/
structure AggregatedQuoteResult where
  routes : List NormalizedRoute
  provider_statuses : List (String × String)
  total_routes : Nat
  response_time_ms : Int
  deriving Repr, DecidableEq

/-- A cached value with its absolute expiry time (Redis `SET ... EX ttl`). -/
structure CacheEntry where
  value : AggregatedQuoteResult
  expiresAt : Int

/-- The Redis key space. -/
abbrev Cache := String → Option CacheEntry

/-- `buildCacheKey`: the deterministic request signature. -/
def buildCacheKey (params : QuoteParams) : String :=
  "quote:" ++ params.source_chain ++ ":" ++ params.destination_chain ++ ":" ++
    params.source_token ++ ":" ++ params.destination_token ++ ":" ++ params.amount

/-- `getCachedQuotes`: a present, unexpired entry is a hit. -/
def getCachedQuotes (cache : Cache) (key : String) (now : Int) :
    Option AggregatedQuoteResult :=
  match cache key with
  | some entry => if now < entry.expiresAt then some entry.value else none
  | none => none

/-- `cacheQuotes`: store the result under `key` for 30 seconds. -/
def cacheQuotes (cache : Cache) (key : String) (result : AggregatedQuoteResult)
    (now : Int) : Cache :=
  fun k => if k = key then some ⟨result, now + 30 * 1000⟩ else cache k

/-- The comparator of the amount pre-sort,
`(a, b) => BigInt(a.output_amount) > BigInt(b.output_amount) ? -1 : 1`:
`a` precedes `b` exactly when its output amount is strictly larger. -/
def outputDesc (a b : NormalizedRoute) : Bool :=
  decide (b.output_amount < a.output_amount)

/-- `aggregateQuotes`: serve an unexpired cached result (with a freshly
measured response time) or fan out to every provider, collect the settled
outcomes, validate, sort by raw output amount, cache and return.
`startTime` and `endTime` are the two `Date.now()` readings. -/
def aggregateQuotes (providers : List ProviderBehavior) (params : QuoteParams)
    (cache : Cache) (startTime endTime : Int) :
    AggregatedQuoteResult × Cache :=
  let cacheKey := buildCacheKey params
  match getCachedQuotes cache cacheKey startTime with
  | some cached =>
    ({ cached with response_time_ms := endTime - startTime }, cache)
  | none =>
    let results := providers.map (fun p => (p.name, settleFetch p))
    let (routes, providerStatuses) := processResults results
    let validRoutes := routes.filter validateRoute
    let sortedRoutes := sortBy outputDesc validRoutes
    let result : AggregatedQuoteResult :=
      { routes := sortedRoutes
        provider_statuses := providerStatuses
        total_routes := validRoutes.length
        response_time_ms := endTime - startTime }
    (result, cacheQuotes cache cacheKey result endTime)

/-- Route constructor shared by the concrete test scenarios below (the spec's
running example: USDC from Solana to Ethereum). -/
def mkRoute (id prov : String) (inAmt outAmt nf bf pf time : Int)
    (risk : String) (rel liq : ℚ) : NormalizedRoute :=
  { route_id := id
    provider := prov
    source_chain := "solana"
    destination_chain := "ethereum"
    source_token := "USDC"
    destination_token := "USDC"
    input_amount := inAmt
    output_amount := outAmt
    total_fee := ⟨some nf, some bf, some pf⟩
    estimated_time := time
    slippage_risk := risk
    reliability_score := rel
    liquidity_score := liq }

/-- Quote request shared by the concrete test scenarios below. -/
def mkParams : QuoteParams :=
  { source_chain := "solana"
    destination_chain := "ethereum"
    source_token := "USDC"
    destination_token := "USDC"
    amount := "10" }

/-- A route passing every sanity check (positive output, output below twice
the input, time below 24 h). -/
def routeOk : NormalizedRoute :=
  mkRoute "r1" "lifi" 1000 990 10 0 0 300 "low" 90 80

/-- A route with zero output amount, failing the first sanity check. -/
def routeZeroOut : NormalizedRoute :=
  mkRoute "r0" "mayan" 1000 0 10 0 0 300 "low" 90 80

/-- Candidate route with total fee `2^53 + 1`, the smallest integer not
representable in binary64. -/
def routeBigFeeA : NormalizedRoute :=
  mkRoute "bigA" "lifi" 1000000000 999000000 9007199254740993 0 0 300 "low" 90 80

/-- Candidate route with total fee `2^53`, exactly one smaller. -/
def routeBigFeeB : NormalizedRoute :=
  mkRoute "bigB" "mayan" 1000000000 998000000 9007199254740992 0 0 600 "low" 90 80

/-- The spec's scenario route A: total fee 100, 300 seconds. -/
def routeA : NormalizedRoute :=
  mkRoute "A" "lifi" 10000000 9990000 100 0 0 300 "low" 90 80

/-- The spec's scenario route B: total fee 50, 600 seconds. -/
def routeB : NormalizedRoute :=
  mkRoute "B" "mayan" 10000000 9980000 50 0 0 600 "low" 90 80

/-- The empty cache (every read misses). -/
def emptyCache : Cache := fun _ => none

/-! ## Library lemmas: stable insertion sort -/

theorem insertBy_perm {α : Type} (le : α → α → Bool) (x : α) (l : List α) :
    List.Perm (insertBy le x l) (x :: l) := by
  induction l with
  | nil => simp [insertBy]
  | cons y ys ih =>
    simp only [insertBy]
    by_cases h : le x y = true
    · simp [h]
    · simp only [h, if_false, Bool.false_eq_true]
      exact ((ih.cons y).trans (List.Perm.swap x y ys))

theorem sortBy_perm {α : Type} (le : α → α → Bool) (l : List α) :
    List.Perm (sortBy le l) l := by
  induction l with
  | nil => simp [sortBy]
  | cons x xs ih => exact (insertBy_perm le x (sortBy le xs)).trans (ih.cons x)

theorem mem_sortBy {α : Type} (le : α → α → Bool) (l : List α) (a : α) :
    a ∈ sortBy le l ↔ a ∈ l :=
  (sortBy_perm le l).mem_iff

theorem length_sortBy {α : Type} (le : α → α → Bool) (l : List α) :
    (sortBy le l).length = l.length :=
  (sortBy_perm le l).length_eq

theorem head?_insertBy {α : Type} (le : α → α → Bool) (x : α) (l : List α) :
    (insertBy le x l).head? = some x ∨ (insertBy le x l).head? = l.head? := by
  cases l with
  | nil => left; simp [insertBy]
  | cons y ys =>
    simp only [insertBy]
    by_cases h : le x y = true
    · left; simp [h]
    · right; simp [h]

theorem chain'_insertBy {α : Type} (key : α → ℚ) (x : α) (l : List α)
    (h : List.Chain' (fun a b => key b ≤ key a) l) :
    List.Chain' (fun a b => key b ≤ key a) (insertBy (descBy key) x l) := by
  induction l with
  | nil => simp [insertBy]
  | cons y ys ih =>
    simp only [insertBy]
    by_cases hxy : descBy key x y = true
    · simp only [hxy, if_true]
      exact List.chain'_cons.mpr ⟨of_decide_eq_true hxy, h⟩
    · simp only [hxy, if_false, Bool.false_eq_true]
      have hlt : key x < key y := by
        have := of_decide_eq_false (Bool.of_not_eq_true hxy)
        exact lt_of_not_le this
      have htail : List.Chain' (fun a b => key b ≤ key a) ys :=
        (List.chain'_cons'.mp h).2
      refine List.chain'_cons'.mpr ⟨?_, ih htail⟩
      intro z hz
      rcases head?_insertBy (descBy key) x ys with hh | hh
      · rw [hh] at hz
        cases hz
        exact le_of_lt hlt
      · rw [hh] at hz
        exact (List.chain'_cons'.mp h).1 z hz

theorem chain'_sortBy {α : Type} (key : α → ℚ) (l : List α) :
    List.Chain' (fun a b => key b ≤ key a) (sortBy (descBy key) l) := by
  induction l with
  | nil => simp [sortBy]
  | cons x xs ih => exact chain'_insertBy key x _ ih

theorem filter_insertBy_of_ne {α : Type} (key : α → ℚ) (s : ℚ) (x : α)
    (l : List α) (hx : key x ≠ s) :
    (insertBy (descBy key) x l).filter (fun y => decide (key y = s)) =
      l.filter (fun y => decide (key y = s)) := by
  induction l with
  | nil => simp [insertBy, hx]
  | cons y ys ih =>
    simp only [insertBy]
    by_cases h : descBy key x y = true
    · simp [h, List.filter, hx]
    · simp only [h, if_false, Bool.false_eq_true, List.filter_cons]
      rw [ih]

theorem filter_insertBy_of_eq {α : Type} (key : α → ℚ) (s : ℚ) (x : α)
    (l : List α) (hx : key x = s) :
    (insertBy (descBy key) x l).filter (fun y => decide (key y = s)) =
      x :: l.filter (fun y => decide (key y = s)) := by
  induction l with
  | nil => simp [insertBy, hx]
  | cons y ys ih =>
    simp only [insertBy]
    by_cases h : descBy key x y = true
    · simp [h, List.filter_cons, hx]
    · have hlt : key x < key y :=
        lt_of_not_le (of_decide_eq_false (Bool.of_not_eq_true h))
      have hy : ¬ (key y = s) := by
        intro hys
        rw [hx, hys] at hlt
        exact lt_irrefl s hlt
      simp only [h, if_false, Bool.false_eq_true, List.filter_cons, hy,
        decide_eq_true_eq, if_false]
      rw [ih]

theorem filter_sortBy_key {α : Type} (key : α → ℚ) (s : ℚ) (l : List α) :
    (sortBy (descBy key) l).filter (fun y => decide (key y = s)) =
      l.filter (fun y => decide (key y = s)) := by
  induction l with
  | nil => simp [sortBy]
  | cons x xs ih =>
    simp only [sortBy]
    by_cases hx : key x = s
    · rw [filter_insertBy_of_eq key s x _ hx, ih, List.filter_cons]
      simp [hx]
    · rw [filter_insertBy_of_ne key s x _ hx, ih, List.filter_cons]
      simp [hx]

/-! ## Library lemmas: rank assignment -/

theorem assignRanks_map_pair (n : Nat) (l : List ScoredRoute) :
    (assignRanks n l).map (fun x => (x.route, x.score)) =
      l.map (fun x => (x.route, x.score)) := by
  induction l generalizing n with
  | nil => simp [assignRanks]
  | cons x xs ih => simp [assignRanks, ih]

theorem length_assignRanks (n : Nat) (l : List ScoredRoute) :
    (assignRanks n l).length = l.length := by
  induction l generalizing n with
  | nil => simp [assignRanks]
  | cons x xs ih => simp [assignRanks, ih]

theorem assignRanks_get_rank (n : Nat) (l : List ScoredRoute)
    (i : Fin (assignRanks n l).length) :
    ((assignRanks n l).get i).rank = n + i.1 := by
  induction l generalizing n with
  | nil => exact absurd i.2 (by simp [assignRanks])
  | cons x xs ih =>
    rcases i with ⟨iv, hi⟩
    cases iv with
    | zero => simp [assignRanks]
    | succ j =>
      have hj : j < (assignRanks (n+1) xs).length := by
        simpa [assignRanks] using hi
      have := ih (n+1) ⟨j, hj⟩
      simpa [assignRanks, List.get_cons_succ, Nat.add_assoc, Nat.add_comm 1 j]
        using this

theorem chain'_assignRanks (q : RouteScore → RouteScore → Prop) (n : Nat)
    (l : List ScoredRoute)
    (h : List.Chain' (fun a b => q a.score b.score) l) :
    List.Chain' (fun a b => q a.score b.score) (assignRanks n l) := by
  induction l generalizing n with
  | nil => simp [assignRanks]
  | cons x xs ih =>
    cases xs with
    | nil => simp [assignRanks]
    | cons y ys =>
      simp only [assignRanks]
      refine List.chain'_cons.mpr ⟨(List.chain'_cons.mp h).1, ?_⟩
      have := ih (n+1) (List.chain'_cons.mp h).2
      simpa [assignRanks] using this

/-! ## Library lemmas: result processing -/

theorem processResults_routes (providers : List ProviderBehavior) :
    (processResults (providers.map (fun p => (p.name, settleFetch p)))).1 =
      providers.filterMap fetchQuoteWithTimeout := by
  induction providers with
  | nil => simp [processResults]
  | cons p ps ih =>
    have hs : settleFetch p = SettledResult.fulfilled (fetchQuoteWithTimeout p) := rfl
    cases hp : fetchQuoteWithTimeout p with
    | none =>
      rw [List.map_cons, hs, hp]
      simpa [processResults, List.filterMap_cons, hp] using ih
    | some r =>
      rw [List.map_cons, hs, hp]
      simp only [processResults, List.filterMap_cons, hp]
      rw [ih]

theorem processResults_statuses_success (providers : List ProviderBehavior) :
    ∀ kv ∈ (processResults (providers.map (fun p => (p.name, settleFetch p)))).2,
      kv.2 = "success" := by
  induction providers with
  | nil => simp [processResults]
  | cons p ps ih =>
    have hs : settleFetch p = SettledResult.fulfilled (fetchQuoteWithTimeout p) := rfl
    cases hp : fetchQuoteWithTimeout p with
    | none =>
      rw [List.map_cons, hs, hp]
      simpa [processResults] using ih
    | some r =>
      intro kv hkv
      rw [List.map_cons, hs, hp] at hkv
      simp only [processResults] at hkv
      rcases List.mem_cons.mp hkv with h | h
      · rw [h]
      · exact ih kv h

theorem processResults_statuses (providers : List ProviderBehavior) :
    (processResults (providers.map (fun p => (p.name, settleFetch p)))).2 =
      (providers.filter (fun p => (fetchQuoteWithTimeout p).isSome)).map
        (fun p => (p.name, "success")) := by
  induction providers with
  | nil => simp [processResults]
  | cons p ps ih =>
    have hs : settleFetch p = SettledResult.fulfilled (fetchQuoteWithTimeout p) := rfl
    cases hp : fetchQuoteWithTimeout p with
    | none =>
      rw [List.map_cons, hs, hp]
      simpa [processResults, List.filter_cons, hp] using ih
    | some r =>
      rw [List.map_cons, hs, hp]
      simp only [processResults, List.filter_cons, hp, Option.isSome_some,
        if_true, List.map_cons]
      rw [ih]

/-! ## Library lemmas: extrema of constant lists -/

theorem foldl_min_const (xs : List Int) (c : Int) (h : ∀ x ∈ xs, x = c) :
    xs.foldl min c = c := by
  induction xs with
  | nil => rfl
  | cons x xs ih =>
    have hx : x = c := h x (List.mem_cons_self x xs)
    simp only [List.foldl_cons, hx, min_self]
    exact ih (fun y hy => h y (List.mem_cons_of_mem x hy))

theorem foldl_max_const (xs : List Int) (c : Int) (h : ∀ x ∈ xs, x = c) :
    xs.foldl max c = c := by
  induction xs with
  | nil => rfl
  | cons x xs ih =>
    have hx : x = c := h x (List.mem_cons_self x xs)
    simp only [List.foldl_cons, hx, max_self]
    exact ih (fun y hy => h y (List.mem_cons_of_mem x hy))

theorem listMin_eq_listMax (l : List Int) (c : Int) (h : ∀ x ∈ l, x = c) :
    listMin l = listMax l := by
  cases l with
  | nil => rfl
  | cons x xs =>
    have hx : x = c := h x (List.mem_cons_self x xs)
    have htail : ∀ y ∈ xs, y = c := fun y hy => h y (List.mem_cons_of_mem x hy)
    simp only [listMin, listMax, hx]
    rw [foldl_min_const xs c htail, foldl_max_const xs c htail]

/-! ## Claim theorems -/

/-- C8: passing an empty candidate set to the comparator (`compareRoutes`)
raises an explicit error (`Error('No routes to compare')`) rather than
returning null or an empty comparison object. -/
theorem compareRoutes_empty_raises :
    compareRoutes [] = Except.error "No routes to compare" := rfl

/-- C5: `validateWeights` accepts a `ScoringWeights` exactly when its five
values sum to within 0.01 of 1.0 and each value lies in `[0, 1]`; in
particular a set summing to 1.011 is rejected, a set summing to 1.009 is
accepted, a single weight equal to 1.0 is accepted, and a single weight of
1.01 is rejected. -/
theorem validateWeights_spec (w : ScoringWeights) :
    (validateWeights w = true ↔
      |w.fee_weight + w.speed_weight + w.reliability_weight + w.slippage_weight +
          w.liquidity_weight - 1| ≤ 0.01 ∧
        ((0 ≤ w.fee_weight ∧ w.fee_weight ≤ 1) ∧
          (0 ≤ w.speed_weight ∧ w.speed_weight ≤ 1) ∧
          (0 ≤ w.reliability_weight ∧ w.reliability_weight ≤ 1) ∧
          (0 ≤ w.slippage_weight ∧ w.slippage_weight ≤ 1) ∧
          (0 ≤ w.liquidity_weight ∧ w.liquidity_weight ≤ 1))) ∧
    validateWeights ⟨0.211, 0.2, 0.2, 0.2, 0.2⟩ = false ∧
    validateWeights ⟨0.209, 0.2, 0.2, 0.2, 0.2⟩ = true ∧
    validateWeights ⟨1, 0, 0, 0, 0⟩ = true ∧
    validateWeights ⟨1.01, 0, 0, 0, 0⟩ = false := by
  have hgen : ∀ v : ScoringWeights, validateWeights v = true ↔
      |v.fee_weight + v.speed_weight + v.reliability_weight + v.slippage_weight +
          v.liquidity_weight - 1| ≤ 0.01 ∧
        ((0 ≤ v.fee_weight ∧ v.fee_weight ≤ 1) ∧
          (0 ≤ v.speed_weight ∧ v.speed_weight ≤ 1) ∧
          (0 ≤ v.reliability_weight ∧ v.reliability_weight ≤ 1) ∧
          (0 ≤ v.slippage_weight ∧ v.slippage_weight ≤ 1) ∧
          (0 ≤ v.liquidity_weight ∧ v.liquidity_weight ≤ 1)) := by
    intro v
    simp only [validateWeights]
    by_cases h1 : |v.fee_weight + v.speed_weight + v.reliability_weight +
        v.slippage_weight + v.liquidity_weight - 1| > 0.01
    · rw [if_pos h1]
      simp only [Bool.false_eq_true, false_iff]
      intro hc
      exact absurd hc.1 (not_le.mpr h1)
    · rw [if_neg h1]
      by_cases h2 : ((0 ≤ v.fee_weight ∧ v.fee_weight ≤ 1) ∧
          (0 ≤ v.speed_weight ∧ v.speed_weight ≤ 1) ∧
          (0 ≤ v.reliability_weight ∧ v.reliability_weight ≤ 1) ∧
          (0 ≤ v.slippage_weight ∧ v.slippage_weight ≤ 1) ∧
          (0 ≤ v.liquidity_weight ∧ v.liquidity_weight ≤ 1))
      · rw [if_neg (not_not_intro h2)]
        simp only [true_iff]
        exact ⟨not_lt.mp h1, h2⟩
      · rw [if_pos h2]
        simp only [Bool.false_eq_true, false_iff]
        intro hc
        exact h2 hc.2
  refine ⟨hgen w, ?_, ?_, ?_, ?_⟩
  · rw [Bool.eq_false_iff]
    intro hc
    have := ((hgen _).mp hc).1
    rw [show ((0.211 : ℚ) + 0.2 + 0.2 + 0.2 + 0.2 - 1) = 0.011 by norm_num,
      abs_of_pos (by norm_num)] at this
    norm_num at this
  · rw [(hgen _)]
    constructor
    · rw [show ((0.209 : ℚ) + 0.2 + 0.2 + 0.2 + 0.2 - 1) = 0.009 by norm_num,
        abs_of_pos (by norm_num)]
      norm_num
    · norm_num
  · rw [(hgen _)]
    constructor
    · rw [show ((1 : ℚ) + 0 + 0 + 0 + 0 - 1) = 0 by norm_num]
      norm_num
    · norm_num
  · rw [Bool.eq_false_iff]
    intro hc
    have := ((hgen _).mp hc).2.1.2
    norm_num at this

/-- C7: in any candidate set where every route has the same exact total fee,
every route's fee score is 100; in any set with identical estimated times,
every route's speed score is 100; a single-route candidate set scores 100 on
both fee and speed. -/
theorem scores_const_when_no_spread (route : NormalizedRoute)
    (allRoutes : List NormalizedRoute) (_hmem : route ∈ allRoutes) :
    ((∀ r ∈ allRoutes, totalFeeBigInt r = totalFeeBigInt route) →
        calculateFeeScore route allRoutes = 100) ∧
    ((∀ r ∈ allRoutes, r.estimated_time = route.estimated_time) →
        calculateSpeedScore route allRoutes = 100) ∧
    calculateFeeScore route [route] = 100 ∧
    calculateSpeedScore route [route] = 100 := by
  refine ⟨?_, ?_, ?_, ?_⟩
  · intro hfees
    have hconst : ∀ x ∈ allRoutes.map feeAsNumber, x = feeAsNumber route := by
      intro x hx
      rcases List.mem_map.mp hx with ⟨r, hr, rfl⟩
      simp only [feeAsNumber]
      rw [hfees r hr]
    simp only [calculateFeeScore]
    rw [if_pos (listMin_eq_listMax _ _ hconst)]
  · intro htimes
    have hconst : ∀ x ∈ allRoutes.map (fun r => r.estimated_time),
        x = route.estimated_time := by
      intro x hx
      rcases List.mem_map.mp hx with ⟨r, hr, rfl⟩
      exact htimes r hr
    simp only [calculateSpeedScore]
    rw [if_pos (listMin_eq_listMax _ _ hconst)]
  · simp [calculateFeeScore, listMin, listMax]
  · simp [calculateSpeedScore, listMin, listMax]

/-- C7 witness: the single-route candidate set `[routeOk]` scores 100 on
both fee and speed. -/
theorem scores_const_when_no_spread_witness :
    routeOk ∈ [routeOk] ∧
    ((∀ r ∈ [routeOk], totalFeeBigInt r = totalFeeBigInt routeOk) →
        calculateFeeScore routeOk [routeOk] = 100) ∧
    ((∀ r ∈ [routeOk], r.estimated_time = routeOk.estimated_time) →
        calculateSpeedScore routeOk [routeOk] = 100) ∧
    calculateFeeScore routeOk [routeOk] = 100 ∧
    calculateSpeedScore routeOk [routeOk] = 100 :=
  ⟨by simp, scores_const_when_no_spread routeOk [routeOk] (by simp)⟩

/-- C3: `scoreAndRankRoutes` orders the scored routes as a stable sort
descending by `total_score`: every route's total score is at least the
next-ranked route's, routes with equal total score keep their relative input
order (the filter of each equal-score class is unchanged), and ranks are
assigned 1-based in the sorted order. -/
theorem scoreAndRankRoutes_stable_sort (relLookup : String → Option ℚ)
    (userCustomWeights : Option ScoringWeights) (strategy : String)
    (routes : List NormalizedRoute) :
    List.Chain' (fun a b => b.score.total_score ≤ a.score.total_score)
        (scoreAndRankRoutes relLookup userCustomWeights routes strategy) ∧
    (∀ s : ℚ,
      ((scoreAndRankRoutes relLookup userCustomWeights routes strategy).map
          (fun x => (x.route, x.score))).filter
            (fun p => decide (p.2.total_score = s)) =
        ((scoredRoutes relLookup (getStrategyWeights strategy userCustomWeights)
            routes).map (fun x => (x.route, x.score))).filter
            (fun p => decide (p.2.total_score = s))) ∧
    (∀ i : Fin (scoreAndRankRoutes relLookup userCustomWeights routes strategy).length,
      ((scoreAndRankRoutes relLookup userCustomWeights routes strategy).get i).rank =
        i.1 + 1) := by
  cases hr : routes with
  | nil =>
    refine ⟨by simp [scoreAndRankRoutes], by simp [scoreAndRankRoutes, scoredRoutes], ?_⟩
    intro i
    exact absurd i.2 (by simp [scoreAndRankRoutes])
  | cons r0 rs =>
    have hout : scoreAndRankRoutes relLookup userCustomWeights (r0 :: rs) strategy =
        assignRanks 1 (sortBy (descBy (fun x => x.score.total_score))
          (scoredRoutes relLookup (getStrategyWeights strategy userCustomWeights)
            (r0 :: rs))) := rfl
    refine ⟨?_, ?_, ?_⟩
    · rw [hout]
      exact chain'_assignRanks (fun a b => b.total_score ≤ a.total_score) 1 _
        (chain'_sortBy (fun x : ScoredRoute => x.score.total_score) _)
    · intro s
      rw [hout, assignRanks_map_pair, List.filter_map, List.filter_map]
      have hcomp : ((fun p : NormalizedRoute × RouteScore =>
            decide (p.2.total_score = s)) ∘
            (fun x : ScoredRoute => (x.route, x.score))) =
          (fun y : ScoredRoute => decide (y.score.total_score = s)) := rfl
      rw [hcomp]
      rw [filter_sortBy_key (fun x : ScoredRoute => x.score.total_score) s
        (scoredRoutes relLookup (getStrategyWeights strategy userCustomWeights)
          (r0 :: rs))]
    · intro i
      rw [List.get_of_eq hout i]
      rw [assignRanks_get_rank]
      exact Nat.add_comm 1 i.1

/-- C6: on a cache miss, a provider-returned route is excluded from the final
route list exactly when `output_amount ≤ 0`, or `output_amount` exceeds twice
`input_amount`, or `estimated_time` exceeds 86400 seconds; equivalently, a
route appears in the result exactly when some provider produced it and it
passes `validateRoute`. -/
theorem aggregateQuotes_route_validation
    (providers : List ProviderBehavior) (params : QuoteParams) (cache : Cache)
    (t1 t2 : Int) (r : NormalizedRoute)
    (hmiss : getCachedQuotes cache (buildCacheKey params) t1 = none) :
    (validateRoute r = false ↔
      (r.output_amount ≤ 0 ∨ r.output_amount > 2 * r.input_amount ∨
        r.estimated_time > 86400)) ∧
    (r ∈ (aggregateQuotes providers params cache t1 t2).1.routes ↔
      ((∃ p ∈ providers, fetchQuoteWithTimeout p = some r) ∧
        validateRoute r = true)) := by
  constructor
  · unfold validateRoute
    split_ifs with h1 h2 h3 <;> simp <;> omega
  · simp only [aggregateQuotes, hmiss]
    rw [mem_sortBy, List.mem_filter, processResults_routes, List.mem_filterMap]

/-- C6 witness: with a single successful provider returning `routeZeroOut`
(zero output amount), the route is characterized as invalid and excluded. -/
theorem aggregateQuotes_route_validation_witness :
    getCachedQuotes emptyCache (buildCacheKey mkParams) 0 = none ∧
    ((validateRoute routeZeroOut = false ↔
      (routeZeroOut.output_amount ≤ 0 ∨
        routeZeroOut.output_amount > 2 * routeZeroOut.input_amount ∨
        routeZeroOut.estimated_time > 86400)) ∧
    (routeZeroOut ∈ (aggregateQuotes [⟨"mayan", true, QuoteOutcome.success routeZeroOut⟩]
        mkParams emptyCache 0 50).1.routes ↔
      ((∃ p ∈ [(⟨"mayan", true, QuoteOutcome.success routeZeroOut⟩ : ProviderBehavior)],
          fetchQuoteWithTimeout p = some routeZeroOut) ∧
        validateRoute routeZeroOut = true))) :=
  ⟨rfl, aggregateQuotes_route_validation
    [⟨"mayan", true, QuoteOutcome.success routeZeroOut⟩] mkParams emptyCache 0 50
    routeZeroOut rfl⟩

/-- C10: every entry present in the returned `provider_statuses` map has the
value `'success'`: `fetchQuoteWithTimeout` catches every error and resolves
`null` instead of rejecting, so the `rejected` branch recording `'failed'` is
unreachable, and (on a cache miss) the map holds exactly one `'success'`
entry per provider whose fetch produced a route — failed, timed-out or
unsupported providers are absent. -/
theorem providerStatuses_only_success
    (providers : List ProviderBehavior) (params : QuoteParams) (cache : Cache)
    (t1 t2 : Int)
    (hcache : ∀ k e, cache k = some e →
      ∀ kv ∈ e.value.provider_statuses, kv.2 = "success") :
    (∀ kv ∈ (aggregateQuotes providers params cache t1 t2).1.provider_statuses,
      kv.2 = "success") ∧
    (getCachedQuotes cache (buildCacheKey params) t1 = none →
      (aggregateQuotes providers params cache t1 t2).1.provider_statuses =
        (providers.filter (fun p => (fetchQuoteWithTimeout p).isSome)).map
          (fun p => (p.name, "success"))) := by
  constructor
  · cases hhit : getCachedQuotes cache (buildCacheKey params) t1 with
    | some cached =>
      simp only [aggregateQuotes, hhit]
      unfold getCachedQuotes at hhit
      cases hck : cache (buildCacheKey params) with
      | none =>
        simp only [hck] at hhit
        exact absurd hhit (by simp)
      | some e =>
        simp only [hck] at hhit
        by_cases ht : t1 < e.expiresAt
        · rw [if_pos ht] at hhit
          have hev : e.value = cached := Option.some.inj hhit
          rw [← hev]
          exact hcache _ e hck
        · rw [if_neg ht] at hhit
          exact absurd hhit (by simp)
    | none =>
      simp only [aggregateQuotes, hhit]
      exact processResults_statuses_success providers
  · intro hmiss
    simp only [aggregateQuotes, hmiss]
    exact processResults_statuses providers

/-- C10 witness: three providers of which only the first succeeds, on an
empty cache. -/
theorem providerStatuses_only_success_witness :
    (∀ kv ∈ (aggregateQuotes
        [⟨"lifi", true, QuoteOutcome.success routeOk⟩,
          ⟨"mayan", true, QuoteOutcome.failure⟩,
          ⟨"changenow", false, QuoteOutcome.timeout⟩]
        mkParams emptyCache 0 120).1.provider_statuses,
      kv.2 = "success") ∧
    (getCachedQuotes emptyCache (buildCacheKey mkParams) 0 = none →
      (aggregateQuotes
          [⟨"lifi", true, QuoteOutcome.success routeOk⟩,
            ⟨"mayan", true, QuoteOutcome.failure⟩,
            ⟨"changenow", false, QuoteOutcome.timeout⟩]
          mkParams emptyCache 0 120).1.provider_statuses =
        (([⟨"lifi", true, QuoteOutcome.success routeOk⟩,
            ⟨"mayan", true, QuoteOutcome.failure⟩,
            ⟨"changenow", false, QuoteOutcome.timeout⟩] :
              List ProviderBehavior).filter
            (fun p => (fetchQuoteWithTimeout p).isSome)).map
          (fun p => (p.name, "success"))) :=
  providerStatuses_only_success _ mkParams emptyCache 0 120
    (fun _ _ h => Option.noConfusion h)

/-- C4: after a cache-miss call, a second call with identical params that
starts within the 30 s TTL of the cache write is served from the cache: it
returns the same routes, statuses and total (regardless of the provider
behaviours on the second call), leaves the cache untouched, and its
`response_time_ms` is measured from its own start and end times, not copied
from the cached value. -/
theorem aggregateQuotes_cache_idempotent
    (providers providers2 : List ProviderBehavior) (params : QuoteParams)
    (cache : Cache) (t1 t2 t3 t4 : Int)
    (hmiss : getCachedQuotes cache (buildCacheKey params) t1 = none)
    (httl : t3 < t2 + 30 * 1000) :
    (aggregateQuotes providers2 params
        (aggregateQuotes providers params cache t1 t2).2 t3 t4).1.routes =
      (aggregateQuotes providers params cache t1 t2).1.routes ∧
    (aggregateQuotes providers2 params
        (aggregateQuotes providers params cache t1 t2).2 t3 t4).1.provider_statuses =
      (aggregateQuotes providers params cache t1 t2).1.provider_statuses ∧
    (aggregateQuotes providers2 params
        (aggregateQuotes providers params cache t1 t2).2 t3 t4).1.total_routes =
      (aggregateQuotes providers params cache t1 t2).1.total_routes ∧
    (aggregateQuotes providers2 params
        (aggregateQuotes providers params cache t1 t2).2 t3 t4).1.response_time_ms =
      t4 - t3 ∧
    (aggregateQuotes providers2 params
        (aggregateQuotes providers params cache t1 t2).2 t3 t4).2 =
      (aggregateQuotes providers params cache t1 t2).2 := by
  set Y := aggregateQuotes providers params cache t1 t2 with hY
  have hhit : getCachedQuotes Y.2 (buildCacheKey params) t3 = some Y.1 := by
    rw [hY]
    simp only [aggregateQuotes, hmiss]
    simp [getCachedQuotes, cacheQuotes]
    omega
  refine ⟨?_, ?_, ?_, ?_, ?_⟩ <;> simp only [aggregateQuotes, hhit]

/-- C4 witness: a miss at time 0 cached at time 100 is hit by a second call
starting at time 5000, whose response time is 40 ms. -/
theorem aggregateQuotes_cache_idempotent_witness :
    getCachedQuotes emptyCache (buildCacheKey mkParams) 0 = none ∧
    (5000 : Int) < 100 + 30 * 1000 ∧
    ((aggregateQuotes [] mkParams
        (aggregateQuotes [⟨"lifi", true, QuoteOutcome.success routeOk⟩] mkParams
          emptyCache 0 100).2 5000 5040).1.routes =
      (aggregateQuotes [⟨"lifi", true, QuoteOutcome.success routeOk⟩] mkParams
        emptyCache 0 100).1.routes ∧
    (aggregateQuotes [] mkParams
        (aggregateQuotes [⟨"lifi", true, QuoteOutcome.success routeOk⟩] mkParams
          emptyCache 0 100).2 5000 5040).1.provider_statuses =
      (aggregateQuotes [⟨"lifi", true, QuoteOutcome.success routeOk⟩] mkParams
        emptyCache 0 100).1.provider_statuses ∧
    (aggregateQuotes [] mkParams
        (aggregateQuotes [⟨"lifi", true, QuoteOutcome.success routeOk⟩] mkParams
          emptyCache 0 100).2 5000 5040).1.total_routes =
      (aggregateQuotes [⟨"lifi", true, QuoteOutcome.success routeOk⟩] mkParams
        emptyCache 0 100).1.total_routes ∧
    (aggregateQuotes [] mkParams
        (aggregateQuotes [⟨"lifi", true, QuoteOutcome.success routeOk⟩] mkParams
          emptyCache 0 100).2 5000 5040).1.response_time_ms = 5040 - 5000 ∧
    (aggregateQuotes [] mkParams
        (aggregateQuotes [⟨"lifi", true, QuoteOutcome.success routeOk⟩] mkParams
          emptyCache 0 100).2 5000 5040).2 =
      (aggregateQuotes [⟨"lifi", true, QuoteOutcome.success routeOk⟩] mkParams
        emptyCache 0 100).2) :=
  ⟨rfl, by decide,
    aggregateQuotes_cache_idempotent [⟨"lifi", true, QuoteOutcome.success routeOk⟩]
      [] mkParams emptyCache 0 100 5000 5040 rfl (by decide)⟩

/-- C1 (failing input): with three providers of which exactly one succeeds
with a valid route, the aggregate result holds exactly that route and its
status map holds exactly one entry, `("lifi", "success")` — the two failing
providers do not appear with status `'failed'` (they are absent), because
`fetchQuoteWithTimeout` resolves `null` rather than rejecting. -/
theorem aggregateQuotes_partial_failure_eval :
    (aggregateQuotes
        [⟨"lifi", true, QuoteOutcome.success routeOk⟩,
          ⟨"mayan", true, QuoteOutcome.failure⟩,
          ⟨"changenow", true, QuoteOutcome.timeout⟩]
        mkParams emptyCache 0 120).1.routes = [routeOk] ∧
    (aggregateQuotes
        [⟨"lifi", true, QuoteOutcome.success routeOk⟩,
          ⟨"mayan", true, QuoteOutcome.failure⟩,
          ⟨"changenow", true, QuoteOutcome.timeout⟩]
        mkParams emptyCache 0 120).1.provider_statuses = [("lifi", "success")] ∧
    ((aggregateQuotes
        [⟨"lifi", true, QuoteOutcome.success routeOk⟩,
          ⟨"mayan", true, QuoteOutcome.failure⟩,
          ⟨"changenow", true, QuoteOutcome.timeout⟩]
        mkParams emptyCache 0 120).1.provider_statuses.filter
          (fun kv => kv.2 = "failed")).length = 0 ∧
    (aggregateQuotes
        [⟨"lifi", true, QuoteOutcome.success routeOk⟩,
          ⟨"mayan", true, QuoteOutcome.failure⟩,
          ⟨"changenow", true, QuoteOutcome.timeout⟩]
        mkParams emptyCache 0 120).1.total_routes = 1 := by
  refine ⟨?_, ?_, ?_, ?_⟩ <;>
    norm_num [aggregateQuotes, getCachedQuotes, emptyCache, processResults,
      settleFetch, fetchQuoteWithTimeout, validateRoute, routeOk, mkRoute,
      sortBy, insertBy, outputDesc]
  decide

/-- C2 (failing input): two candidate routes whose exact big-integer fee
totals are `2^53 + 1` and `2^53` differ, yet after the `Number(...)`
conversion the pipeline cannot distinguish them: `getTotalFee` returns the
same value for both, `calculateFeeScore` gives both routes 100 (the converted
spread is zero), and `compareRoutes` picks the exactly-more-expensive first
route as `cheapest_route`. -/
theorem feeScore_bigint_precision_loss :
    totalFeeBigInt routeBigFeeA ≠ totalFeeBigInt routeBigFeeB ∧
    getTotalFee routeBigFeeA = getTotalFee routeBigFeeB ∧
    calculateFeeScore routeBigFeeA [routeBigFeeA, routeBigFeeB] = 100 ∧
    calculateFeeScore routeBigFeeB [routeBigFeeA, routeBigFeeB] = 100 ∧
    (compareRoutes [routeBigFeeA, routeBigFeeB]).map (fun c => c.cheapest_route) =
      Except.ok routeBigFeeA := by
  have hA : toDouble (totalFeeBigInt routeBigFeeA) = 9007199254740992 := by
    norm_num [totalFeeBigInt, routeBigFeeA, mkRoute, toDouble, natToDouble,
      bitLen, rne]
  have hB : toDouble (totalFeeBigInt routeBigFeeB) = 9007199254740992 := by
    norm_num [totalFeeBigInt, routeBigFeeB, mkRoute, toDouble, natToDouble]
  refine ⟨?_, ?_, ?_, ?_, ?_⟩
  · norm_num [totalFeeBigInt, routeBigFeeA, routeBigFeeB, mkRoute]
  · rw [getTotalFee, getTotalFee, hA, hB]
  · simp only [calculateFeeScore, feeAsNumber, List.map_cons, List.map_nil,
      hA, hB, listMin, listMax, List.foldl_cons, List.foldl_nil, min_self,
      max_self, if_pos]
  · simp only [calculateFeeScore, feeAsNumber, List.map_cons, List.map_nil,
      hA, hB, listMin, listMax, List.foldl_cons, List.foldl_nil, min_self,
      max_self, if_pos]
  · simp only [compareRoutes, getTotalFee, hA, hB, List.foldl_cons,
      List.foldl_nil, lt_irrefl, if_false, Except.map]

/-- C9: in the spec's `lowest_cost` scenario (route A: fee 100, 300 s;
route B: fee 50, 600 s; equal reliability, slippage and liquidity), the
strategy weights are (0.6, 0.1, 0.1, 0.1, 0.1), B's fee score is 100 and A's
is 0, A's speed score is 100 and B's is 0, and B ranks strictly above A. -/
theorem lowest_cost_scenario :
    getStrategyWeights "lowest_cost" none =
      ⟨0.6, 0.1, 0.1, 0.1, 0.1⟩ ∧
    (scoreAndRankRoutes (fun _ => none) none [routeA, routeB] "lowest_cost").map
        (fun x => (x.route.route_id, x.score.fee_score, x.score.speed_score, x.rank)) =
      [("B", (100 : ℚ), (0 : ℚ), 1), ("A", (0 : ℚ), (100 : ℚ), 2)] := by
  have hw : getStrategyWeights "lowest_cost" none =
      ⟨0.6, 0.1, 0.1, 0.1, 0.1⟩ := rfl
  constructor
  · exact hw
  · norm_num [scoreAndRankRoutes, scoredRoutes, calculateRouteScore,
      calculateFeeScore, calculateSpeedScore, calculateReliabilityScore,
      calculateSlippageScore, feeAsNumber, totalFeeBigInt, toDouble,
      natToDouble, listMin, listMax, jsRound, round2, sortBy, insertBy,
      descBy, assignRanks, hw, routeA, routeB, mkRoute]

end XROH
